import Mathlib

/-!
# AI-Charts — Multi-Provider Extraction Pipeline, verified model

Shallow embedding of the extraction-pipeline core of the AI-Charts
repository (`packages/ai-core`), together with proofs of the behavioural
claims about it.

Conventions of the embedding:
* JavaScript binary strings (one code unit per byte) are modelled as
  `List Nat` with every element `< 256`; JS numbers appearing only as
  opaque payloads are modelled as `ℚ` (only definedness and equality of
  `value` fields matter to the verified code paths).
* Fallible async functions are modelled as `Except String` values, the
  `String` being the JS `Error` message.
* External effects (pdfjs rasterisation, model calls) are abstracted as
  oracle records; the repository's control flow around them is embedded
  exactly.
-/

namespace AIChart

/-! ## Data model — `packages/shared/src/index.ts` -/

/-- `RecordDataSchema.type`: `z.enum(['health', 'finance'])`. -/
inductive RecordType where
  | health
  | finance
deriving DecidableEq, Repr

/-- `MetricItemSchema.status` enumeration. -/
inductive ItemStatus where
  | normal
  | high
  | low
  | positive
  | negative
  | income
  | expense
  | neutral
deriving DecidableEq, Repr

/-- `MetricItemSchema`: one extracted metric.  `value` is a JS number that
may be absent at runtime (the merge code guards `item.value !== undefined`),
hence `Option ℚ`; optional schema fields are `Option`s. -/
structure MetricItem where
  key : String
  name : String
  value : Option ℚ
  unit : Option String
  status : ItemStatus
  reference : Option String
  notes : Option String
  displayOrder : Option ℚ
  categoryTag : Option String
  parentKey : Option String
deriving DecidableEq, Repr

/-- `RecordDataSchema`: the complete extraction result. -/
structure RecordData where
  type : RecordType
  title : Option String
  category : String
  date : String
  summary : Option ℚ
  items : List MetricItem
deriving DecidableEq, Repr

/-! ## Base64 codec — `packages/ai-core/src/utils/base64.ts`

`arrayBufferToBase64` builds a binary string from the bytes with
`String.fromCharCode` and calls the Web primitive `btoa`;
`base64ToArrayBuffer` calls `atob` and reads bytes back with
`charCodeAt`.  `fromCharCode`/`charCodeAt` are the identity between a
byte and a code unit in range 0–255, so the binary string is the byte
list itself.  `btoa`/`atob` are the RFC 4648 base64 encoder/decoder with
`=` padding, embedded below on code-unit lists. -/

/-- The RFC 4648 base64 alphabet used by `btoa`/`atob`. -/
def b64Alphabet : List Char :=
  ['A', 'B', 'C', 'D', 'E', 'F', 'G', 'H', 'I', 'J', 'K', 'L', 'M',
   'N', 'O', 'P', 'Q', 'R', 'S', 'T', 'U', 'V', 'W', 'X', 'Y', 'Z',
   'a', 'b', 'c', 'd', 'e', 'f', 'g', 'h', 'i', 'j', 'k', 'l', 'm',
   'n', 'o', 'p', 'q', 'r', 's', 't', 'u', 'v', 'w', 'x', 'y', 'z',
   '0', '1', '2', '3', '4', '5', '6', '7', '8', '9', '+', '/']

/-- Digit of the alphabet for a 6-bit value. -/
def encChar (i : Nat) : Char := b64Alphabet.getD i 'A'

/-- 6-bit value of an alphabet digit (`atob`'s digit table). -/
def decChar (c : Char) : Nat := b64Alphabet.indexOf c

/-- `btoa` body: encode code units (each < 256) three at a time into four
base64 digits, padding the final partial group with `=`. -/
def encB64 : List Nat → List Char
  | [] => []
  | [b0] =>
      [encChar (b0 / 4), encChar (b0 % 4 * 16), '=', '=']
  | [b0, b1] =>
      [encChar (b0 / 4), encChar (b0 % 4 * 16 + b1 / 16),
       encChar (b1 % 16 * 4), '=']
  | b0 :: b1 :: b2 :: rest =>
      encChar (b0 / 4) :: encChar (b0 % 4 * 16 + b1 / 16) ::
      encChar (b1 % 16 * 4 + b2 / 64) :: encChar (b2 % 64) ::
      encB64 rest

/-- `atob` body: decode four base64 digits into three code units, a
`=`-padded final group into one or two.  (`atob` rejects `=` anywhere but
the end of the input; on such invalid inputs — which no `btoa` output
contains — the model simply stops at the padding.) -/
def decB64 : List Char → List Nat
  | c0 :: c1 :: c2 :: c3 :: rest =>
      if c2 = '=' then
        [decChar c0 * 4 + decChar c1 / 16]
      else if c3 = '=' then
        [decChar c0 * 4 + decChar c1 / 16,
         decChar c1 % 16 * 16 + decChar c2 / 4]
      else
        (decChar c0 * 4 + decChar c1 / 16) ::
        (decChar c1 % 16 * 16 + decChar c2 / 4) ::
        (decChar c2 % 4 * 64 + decChar c3) ::
        decB64 rest
  | _ => []

/-- `arrayBufferToBase64(buffer)`: bytes → binary string → `btoa`. -/
def arrayBufferToBase64 (buffer : List Nat) : String :=
  String.mk (encB64 buffer)

/-- `base64ToArrayBuffer(base64)`: `atob` → bytes via `charCodeAt`. -/
def base64ToArrayBuffer (base64 : String) : List Nat :=
  decB64 base64.data

theorem decChar_encChar {i : Nat} (hi : i < 64) : decChar (encChar i) = i := by
  interval_cases i <;> rfl

theorem encChar_ne_pad {i : Nat} (hi : i < 64) : encChar i ≠ '=' := by
  interval_cases i <;> decide

theorem decB64_encB64 :
    ∀ B : List Nat, (∀ b ∈ B, b < 256) → decB64 (encB64 B) = B := by
  intro B
  induction B using encB64.induct with
  | case1 =>
      intro _; rfl
  | case2 b0 =>
      intro hb
      have h0 : b0 < 256 := hb b0 (by simp)
      rw [encB64, decB64]
      rw [if_pos (rfl : ('=' : Char) = '=')]
      rw [decChar_encChar (show b0 / 4 < 64 by omega),
          decChar_encChar (show b0 % 4 * 16 < 64 by omega)]
      simp only [List.cons.injEq, and_true]
      omega
  | case3 b0 b1 =>
      intro hb
      have h0 : b0 < 256 := hb b0 (by simp)
      have h1 : b1 < 256 := hb b1 (by simp)
      rw [encB64, decB64]
      rw [if_neg (encChar_ne_pad (show b1 % 16 * 4 < 64 by omega)),
          if_pos (rfl : ('=' : Char) = '=')]
      rw [decChar_encChar (show b0 / 4 < 64 by omega),
          decChar_encChar (show b0 % 4 * 16 + b1 / 16 < 64 by omega),
          decChar_encChar (show b1 % 16 * 4 < 64 by omega)]
      simp only [List.cons.injEq, and_true]
      omega
  | case4 b0 b1 b2 rest ih =>
      intro hb
      have h0 : b0 < 256 := hb b0 (by simp)
      have h1 : b1 < 256 := hb b1 (by simp)
      have h2 : b2 < 256 := hb b2 (by simp)
      rw [encB64, decB64]
      rw [if_neg (encChar_ne_pad (show b1 % 16 * 4 + b2 / 64 < 64 by omega)),
          if_neg (encChar_ne_pad (show b2 % 64 < 64 by omega))]
      rw [decChar_encChar (show b0 / 4 < 64 by omega),
          decChar_encChar (show b0 % 4 * 16 + b1 / 16 < 64 by omega),
          decChar_encChar (show b1 % 16 * 4 + b2 / 64 < 64 by omega),
          decChar_encChar (show b2 % 64 < 64 by omega)]
      rw [ih (fun b hbm => hb b (by simp [hbm]))]
      simp only [List.cons.injEq, and_true]
      omega

/-- C7: the binary↔base64 codec round-trips every byte sequence,
including bytes ≥ 0x80. -/
theorem base64_roundtrip (B : List Nat) (hB : ∀ b ∈ B, b < 256) :
    base64ToArrayBuffer (arrayBufferToBase64 B) = B := by
  unfold base64ToArrayBuffer arrayBufferToBase64
  exact decB64_encB64 B hB

/-- C7 witness: concrete round trip over low, high and boundary bytes. -/
theorem base64_roundtrip_witness :
    (∀ b ∈ [0, 1, 127, 128, 200, 255], b < 256) ∧
      base64ToArrayBuffer (arrayBufferToBase64 [0, 1, 127, 128, 200, 255]) =
        [0, 1, 127, 128, 200, 255] :=
  ⟨by decide, base64_roundtrip [0, 1, 127, 128, 200, 255] (by decide)⟩

/-! ## Multi-page merge — `packages/ai-core/src/extractors/pdf.ts`,
`mergeMultiPageResults` (lines 242–277)

The dedup pass uses a JS `Map` keyed by `item.key`.  A JS `Map` keeps
insertion order, and `set` on an existing key updates the entry in place;
it is embedded as an association list. -/

/-- JS `Map.prototype.has` on a string-keyed insertion-ordered map. -/
def mapHasKey (m : List (String × MetricItem)) (k : String) : Bool :=
  m.any (fun p => p.1 == k)

/-- JS `Map.prototype.set`: an existing key is updated in place, a new key
is appended at the end. -/
def mapSet (m : List (String × MetricItem)) (k : String) (v : MetricItem) :
    List (String × MetricItem) :=
  if mapHasKey m k then m.map (fun p => if p.1 == k then (k, v) else p)
  else m ++ [(k, v)]

/-- One iteration of the dedup loop:
`if (!uniqueItems.has(item.key) || item.value !== undefined)
   uniqueItems.set(item.key, item)`. -/
def dedupStep (m : List (String × MetricItem)) (item : MetricItem) :
    List (String × MetricItem) :=
  if !mapHasKey m item.key || item.value.isSome then mapSet m item.key item
  else m

/-- The dedup pass over the concatenated items, then
`Array.from(uniqueItems.values())`. -/
def dedupItems (items : List MetricItem) : List MetricItem :=
  (items.foldl dedupStep []).map (fun p => p.2)

/-- The `merged.items.push(...result.items)` loop, in page order.
(`result.items` is always an array per the schema, so the
`Array.isArray` guard is always taken.) -/
def concatItems (results : List RecordData) : List MetricItem :=
  results.foldl (fun acc r => acc ++ r.items) []

/-- `mergeMultiPageResults(results)`: throws on no results, returns a
single result unchanged, and otherwise merges metadata of the first page
with the deduplicated concatenation of all pages' items (`title` is not
copied by the merge). -/
def mergeMultiPageResults (results : List RecordData) : Except String RecordData :=
  match results with
  | [] => Except.error "No results to merge"
  | [r] => Except.ok r
  | r :: _ :: _ =>
      Except.ok
        { type := r.type
          title := none
          category := r.category
          date := r.date
          summary := r.summary
          items := dedupItems (concatItems results) }

theorem foldl_concat_eq (results : List RecordData) :
    ∀ acc : List MetricItem,
      results.foldl (fun acc r => acc ++ r.items) acc =
        acc ++ results.foldl (fun acc r => acc ++ r.items) [] := by
  induction results with
  | nil => intro acc; simp
  | cons r rs ih =>
      intro acc
      rw [List.foldl_cons, List.foldl_cons, ih (acc ++ r.items),
          ih ([] ++ r.items)]
      simp

theorem concatItems_cons (r : RecordData) (rs : List RecordData) :
    concatItems (r :: rs) = r.items ++ concatItems rs := by
  unfold concatItems
  rw [List.foldl_cons, foldl_concat_eq rs ([] ++ r.items)]
  simp

theorem foldl_dedupStep_fresh :
    ∀ (items : List MetricItem) (m : List (String × MetricItem)),
      (items.map (fun it => it.key)).Nodup →
      (∀ it ∈ items, mapHasKey m it.key = false) →
      items.foldl dedupStep m = m ++ items.map (fun it => (it.key, it))
  | [], m, _, _ => by simp
  | i :: rest, m, hnd, hfresh => by
      have hm : mapHasKey m i.key = false := hfresh i (by simp)
      have hstep : dedupStep m i = m ++ [(i.key, i)] := by
        simp [dedupStep, mapSet, hm]
      have hnd' : (∀ x ∈ rest, ¬x.key = i.key) ∧
          (rest.map (fun it => it.key)).Nodup := by simpa using hnd
      have hfresh' : ∀ it ∈ rest, mapHasKey (m ++ [(i.key, i)]) it.key = false := by
        intro it hit
        have h1 : mapHasKey m it.key = false := hfresh it (by simp [hit])
        have h2 : i.key ≠ it.key := fun hkeq => hnd'.1 it hit hkeq.symm
        simp [mapHasKey, List.any_append] at h1 ⊢
        exact ⟨h1, h2⟩
      rw [List.foldl_cons, hstep,
          foldl_dedupStep_fresh rest (m ++ [(i.key, i)]) hnd'.2 hfresh']
      simp

/-- With pairwise-distinct keys the dedup pass is the identity: every
item survives, in its original (page) order. -/
theorem dedupItems_of_nodup_keys (items : List MetricItem)
    (h : (items.map (fun it => it.key)).Nodup) : dedupItems items = items := by
  unfold dedupItems
  rw [foldl_dedupStep_fresh items [] h (fun it _ => rfl)]
  simp [Function.comp_def]

/-- Fixture: a "wbc" item carrying no value. -/
def wbcNoValue : MetricItem :=
  { key := "wbc", name := "White Blood Cell Count", value := none,
    unit := none, status := ItemStatus.normal, reference := none,
    notes := none, displayOrder := none, categoryTag := none,
    parentKey := none }

/-- Fixture: a "wbc" item with the defined value 5.2. -/
def wbcValued : MetricItem :=
  { key := "wbc", name := "White Blood Cell Count", value := some 5.2,
    unit := none, status := ItemStatus.normal, reference := none,
    notes := none, displayOrder := none, categoryTag := none,
    parentKey := none }

/-- Fixture: an "alt" item with the defined value 30. -/
def altValued : MetricItem :=
  { key := "alt", name := "Alanine Aminotransferase", value := some 30,
    unit := none, status := ItemStatus.normal, reference := none,
    notes := none, displayOrder := none, categoryTag := none,
    parentKey := none }

/-- Fixture: a page whose only item is `wbcNoValue`. -/
def pageWbcUndefined : RecordData :=
  { type := RecordType.health, title := none, category := "blood_test",
    date := "2024-03-01", summary := none, items := [wbcNoValue] }

/-- Fixture: a page whose only item is `wbcValued`. -/
def pageWbcDefined : RecordData :=
  { type := RecordType.health, title := none, category := "blood_test",
    date := "2024-03-01", summary := none, items := [wbcValued] }

/-- Fixture: a page whose only item is `altValued`. -/
def pageAltDefined : RecordData :=
  { type := RecordType.health, title := none, category := "blood_test",
    date := "2024-03-02", summary := none, items := [altValued] }

/-- C1: merging two or more page results deduplicates the concatenated
items by key, a later item with a defined value overwriting its
duplicate; with exactly two items sharing a key, one valueless and one
with a defined numeric value, the merged record keeps exactly one item
for that key — the defined one — whichever came first. -/
theorem mergeMultiPageResults_defined_value_wins
    (rs : List RecordData) (k : String) (v : ℚ) (i1 i2 : MetricItem)
    (hlen : 2 ≤ rs.length)
    (hconcat : concatItems rs = [i1, i2])
    (hk1 : i1.key = k) (hk2 : i2.key = k)
    (hv : (i1.value = none ∧ i2.value = some v) ∨
          (i1.value = some v ∧ i2.value = none)) :
    ∃ merged d, mergeMultiPageResults rs = Except.ok merged ∧
      merged.items = [d] ∧ d.key = k ∧ d.value = some v ∧
      (d = i1 ∨ d = i2) := by
  obtain _ | ⟨r1, _ | ⟨r2, rest⟩⟩ := rs
  · exact absurd hlen (by simp)
  · exact absurd hlen (by simp)
  · rcases hv with ⟨h1, h2⟩ | ⟨h1, h2⟩
    · have hd : dedupItems [i1, i2] = [i2] := by
        simp [dedupItems, dedupStep, mapSet, mapHasKey, hk1, hk2, h1, h2]
      refine ⟨_, i2, rfl, ?_, hk2, h2, Or.inr rfl⟩
      show dedupItems (concatItems (r1 :: r2 :: rest)) = [i2]
      rw [hconcat, hd]
    · have hd : dedupItems [i1, i2] = [i1] := by
        simp [dedupItems, dedupStep, mapSet, mapHasKey, hk1, hk2, h1, h2]
      refine ⟨_, i1, rfl, ?_, hk1, h1, Or.inl rfl⟩
      show dedupItems (concatItems (r1 :: r2 :: rest)) = [i1]
      rw [hconcat, hd]

/-- C1 witness: the undefined-value "wbc" item on page 1, the defined one
on page 2; the merged record keeps only the defined one. -/
theorem mergeMultiPageResults_defined_value_wins_witness :
    (2 ≤ ([pageWbcUndefined, pageWbcDefined] : List RecordData).length) ∧
    concatItems [pageWbcUndefined, pageWbcDefined] = [wbcNoValue, wbcValued] ∧
    wbcNoValue.key = "wbc" ∧ wbcValued.key = "wbc" ∧
    wbcNoValue.value = none ∧ wbcValued.value = some 5.2 ∧
    ∃ merged d,
      mergeMultiPageResults [pageWbcUndefined, pageWbcDefined] =
        Except.ok merged ∧
      merged.items = [d] ∧ d.key = "wbc" ∧ d.value = some 5.2 ∧
      (d = wbcNoValue ∨ d = wbcValued) :=
  ⟨by decide, rfl, rfl, rfl, rfl, rfl,
   mergeMultiPageResults_defined_value_wins
     [pageWbcUndefined, pageWbcDefined] "wbc" 5.2 wbcNoValue wbcValued
     (by decide) rfl rfl rfl (Or.inl ⟨rfl, rfl⟩)⟩

/-- C2: a multi-page merge (two or more page results) takes `type`,
`category`, `date` and `summary` from the first page and feeds the
concatenation of all pages' items, in page order, to the dedup pass —
with pairwise-distinct keys the items survive exactly in page order; in
particular the 2-page wbc/alt scenario yields exactly the two items, keys
"wbc" then "alt". -/
theorem mergeMultiPageResults_first_page_metadata :
    (∀ (r1 r2 : RecordData) (rest : List RecordData),
      ∃ merged,
        mergeMultiPageResults (r1 :: r2 :: rest) = Except.ok merged ∧
        merged.type = r1.type ∧ merged.category = r1.category ∧
        merged.date = r1.date ∧ merged.summary = r1.summary ∧
        merged.items = dedupItems (r1.items ++ (r2.items ++ concatItems rest)) ∧
        (((r1.items ++ (r2.items ++ concatItems rest)).map
            (fun it => it.key)).Nodup →
          merged.items = r1.items ++ (r2.items ++ concatItems rest))) ∧
    mergeMultiPageResults [pageWbcDefined, pageAltDefined] =
      Except.ok
        { type := RecordType.health, title := none, category := "blood_test",
          date := "2024-03-01", summary := none,
          items := [wbcValued, altValued] } := by
  constructor
  · intro r1 r2 rest
    refine ⟨_, rfl, rfl, rfl, rfl, rfl, ?_, ?_⟩
    · show dedupItems (concatItems (r1 :: r2 :: rest)) = _
      rw [concatItems_cons, concatItems_cons]
    · intro hnd
      show dedupItems (concatItems (r1 :: r2 :: rest)) = _
      rw [concatItems_cons, concatItems_cons]
      exact dedupItems_of_nodup_keys _ hnd
  · rfl

/-- C2 witness: the general statement applied to the concrete 2-page
wbc/alt scenario, with the distinct-keys hypothesis discharged. -/
theorem mergeMultiPageResults_first_page_metadata_witness :
    ∃ merged,
      mergeMultiPageResults [pageWbcDefined, pageAltDefined] =
        Except.ok merged ∧
      merged.items =
        pageWbcDefined.items ++ (pageAltDefined.items ++ concatItems []) := by
  obtain ⟨merged, hok, _, _, _, _, _, hnd⟩ :=
    mergeMultiPageResults_first_page_metadata.1 pageWbcDefined pageAltDefined []
  exact ⟨merged, hok, hnd (by decide)⟩

/-! ## PDF pipeline — `packages/ai-core/src/extractors/pdf.ts`,
`extractDataFromPDF` / `extractFromVision` / `extractFromText`
(lines 142–236) -/

/-- `PDFExtractionStrategy`: `'vision' | 'text'`. -/
inductive PDFStrategy where
  | vision
  | text
deriving DecidableEq, Repr

/-- The effectful dependencies of one pipeline request, as deterministic
outcomes: the pdfjs rasterisation `convertPDFToImages` (carrying its
wrapped error message on failure), the per-page vision model call
`extractDataFromImage`, and the rolled-up text path (`extractTextFromPDF`
followed by the reasoning-model call inside `extractFromText`). -/
structure PDFWorld where
  convertPDFToImages : Except String (List String)
  extractDataFromImage : String → Except String RecordData
  extractFromTextResult : Except String RecordData

/-- `Promise.all` over the per-page `extractDataFromImage` calls: every
page's result in page order, or a failure if any page fails. -/
def collectPages (w : PDFWorld) : List String → Except String (List RecordData)
  | [] => Except.ok []
  | img :: rest =>
      match w.extractDataFromImage img with
      | Except.error e => Except.error e
      | Except.ok r =>
          match collectPages w rest with
          | Except.error e => Except.error e
          | Except.ok rs => Except.ok (r :: rs)

/-- `extractFromVision`: rasterise, fail on zero pages, extract directly
for a single page, otherwise fan out and merge. -/
def extractFromVision (w : PDFWorld) : Except String RecordData :=
  match w.convertPDFToImages with
  | Except.error e => Except.error e
  | Except.ok images =>
      match images with
      | [] => Except.error "PDF has no pages"
      | [img] => w.extractDataFromImage img
      | img0 :: img1 :: restImgs =>
          match collectPages w (img0 :: img1 :: restImgs) with
          | Except.error e => Except.error e
          | Except.ok results => mergeMultiPageResults results

/-- `extractFromText`: outcome of the text path for this request. -/
def extractFromText (w : PDFWorld) : Except String RecordData :=
  w.extractFromTextResult

/-- `extractDataFromPDF` with an instrumentation trace: the second
component lists, in order, the strategies attempted.  Control flow as in
the source: try the primary strategy (vision unless `options.strategy`
is `'text'`), on any failure in that path try the other once, and let the
second path's error propagate unchanged if it also fails. -/
def extractDataFromPDF (w : PDFWorld) (strategy : PDFStrategy) :
    Except String RecordData × List PDFStrategy :=
  match strategy with
  | PDFStrategy.text =>
      match extractFromText w with
      | Except.ok r => (Except.ok r, [PDFStrategy.text])
      | Except.error _ =>
          (extractFromVision w, [PDFStrategy.text, PDFStrategy.vision])
  | PDFStrategy.vision =>
      match extractFromVision w with
      | Except.ok r => (Except.ok r, [PDFStrategy.vision])
      | Except.error _ =>
          (extractFromText w, [PDFStrategy.vision, PDFStrategy.text])

/-- The run of a single strategy path. -/
def runStrategy (w : PDFWorld) : PDFStrategy → Except String RecordData
  | PDFStrategy.vision => extractFromVision w
  | PDFStrategy.text => extractFromText w

/-- The opposite strategy, used as the fallback. -/
def otherStrategy : PDFStrategy → PDFStrategy
  | PDFStrategy.vision => PDFStrategy.text
  | PDFStrategy.text => PDFStrategy.vision

/-- C3: the primary strategy runs first; if it succeeds no fallback runs;
on any failure the other strategy is attempted exactly once and its
outcome is the pipeline's outcome, so when both fail the error surfaced
is the second (last-attempted) path's error, unchanged. -/
theorem extractDataFromPDF_fallback (w : PDFWorld) (s : PDFStrategy) :
    (∀ r, runStrategy w s = Except.ok r →
      extractDataFromPDF w s = (Except.ok r, [s])) ∧
    (∀ e, runStrategy w s = Except.error e →
      extractDataFromPDF w s =
        (runStrategy w (otherStrategy s), [s, otherStrategy s])) ∧
    (∀ e e', runStrategy w s = Except.error e →
      runStrategy w (otherStrategy s) = Except.error e' →
      (extractDataFromPDF w s).1 = Except.error e') := by
  cases s
  case vision =>
    refine ⟨fun r h => ?_, fun e h => ?_, fun e e' h h' => ?_⟩
    · simp only [runStrategy] at h
      simp [extractDataFromPDF, h]
    · simp only [runStrategy] at h
      simp [extractDataFromPDF, runStrategy, otherStrategy, h]
    · simp only [runStrategy, otherStrategy] at h h'
      simp [extractDataFromPDF, h, h']
  case text =>
    refine ⟨fun r h => ?_, fun e h => ?_, fun e e' h h' => ?_⟩
    · simp only [runStrategy] at h
      simp [extractDataFromPDF, h]
    · simp only [runStrategy] at h
      simp [extractDataFromPDF, runStrategy, otherStrategy, h]
    · simp only [runStrategy, otherStrategy] at h h'
      simp [extractDataFromPDF, h, h']

/-- Fixture: a request on which rasterisation and the text model both
fail, with distinct messages. -/
def worldBothFail : PDFWorld :=
  { convertPDFToImages :=
      Except.error "Failed to convert PDF to images: OffscreenCanvas not available in this environment. Use text extraction fallback."
    extractDataFromImage := fun _ => Except.error "model unavailable"
    extractFromTextResult :=
      Except.error "text model returned malformed output" }

/-- C3 witness: with vision primary and both paths failing, the surfaced
error is the text (last-attempted) path's message. -/
theorem extractDataFromPDF_fallback_witness :
    runStrategy worldBothFail PDFStrategy.vision =
      Except.error "Failed to convert PDF to images: OffscreenCanvas not available in this environment. Use text extraction fallback." ∧
    runStrategy worldBothFail (otherStrategy PDFStrategy.vision) =
      Except.error "text model returned malformed output" ∧
    (extractDataFromPDF worldBothFail PDFStrategy.vision).1 =
      Except.error "text model returned malformed output" :=
  ⟨rfl, rfl,
   (extractDataFromPDF_fallback worldBothFail PDFStrategy.vision).2.2
     "Failed to convert PDF to images: OffscreenCanvas not available in this environment. Use text extraction fallback."
     "text model returned malformed output" rfl rfl⟩

/-- Fixture: an empty record as a possible text-model output. -/
def emptyTextRecord : RecordData :=
  { type := RecordType.health, title := none, category := "blood_test",
    date := "2024-04-01", summary := none, items := [] }

/-- Fixture: a request whose rasterisation yields zero page images but
whose text path succeeds. -/
def worldZeroPages : PDFWorld :=
  { convertPDFToImages := Except.ok []
    extractDataFromImage := fun _ => Except.error "never called"
    extractFromTextResult := Except.ok emptyTextRecord }

/-- C9 counterexample: a zero-page PDF is not fatal for every model
behavior — the vision path fails with "PDF has no pages", but the
fallback text path can succeed, and then the whole request succeeds. -/
theorem zero_page_pdf_not_always_fatal :
    worldZeroPages.convertPDFToImages = Except.ok [] ∧
    extractFromVision worldZeroPages = Except.error "PDF has no pages" ∧
    (extractDataFromPDF worldZeroPages PDFStrategy.vision).1 =
      Except.ok emptyTextRecord :=
  ⟨rfl, rfl, rfl⟩

/-- C9 (amended): on a zero-page PDF the vision path itself always fails
with "PDF has no pages" (the merge-level zero-results error is never
reached); `extractDataFromPDF` then falls back to text, so the request
fails only when the text path also fails, and then with the text path's
error. -/
theorem zero_page_pdf_vision_always_fails (w : PDFWorld)
    (h : w.convertPDFToImages = Except.ok []) :
    extractFromVision w = Except.error "PDF has no pages" ∧
    (∀ r, extractFromText w = Except.ok r →
      extractDataFromPDF w PDFStrategy.vision =
        (Except.ok r, [PDFStrategy.vision, PDFStrategy.text])) ∧
    (∀ e, extractFromText w = Except.error e →
      extractDataFromPDF w PDFStrategy.vision =
        (Except.error e, [PDFStrategy.vision, PDFStrategy.text])) := by
  have hv : extractFromVision w = Except.error "PDF has no pages" := by
    simp [extractFromVision, h]
  refine ⟨hv, fun r hr => ?_, fun e he => ?_⟩
  · simp [extractDataFromPDF, hv, hr]
  · simp [extractDataFromPDF, hv, he]

/-- C9 (amended) witness: the zero-page fixture with a succeeding text
path exercises the amended statement. -/
theorem zero_page_pdf_vision_always_fails_witness :
    worldZeroPages.convertPDFToImages = Except.ok [] ∧
    extractFromVision worldZeroPages = Except.error "PDF has no pages" ∧
    extractDataFromPDF worldZeroPages PDFStrategy.vision =
      (Except.ok emptyTextRecord, [PDFStrategy.vision, PDFStrategy.text]) :=
  ⟨rfl, (zero_page_pdf_vision_always_fails worldZeroPages rfl).1,
   (zero_page_pdf_vision_always_fails worldZeroPages rfl).2.1
     emptyTextRecord rfl⟩

/-! ## Image extraction retry — `packages/ai-core/src/extractors/image.ts`,
`extractDataFromImageWithRetry`

The base operation `extractDataFromImage(env, imageBuffer, domain, …)` is
abstracted as `f : Nat → Except String RecordData`, giving the outcome
of each numbered attempt.  The loop is instrumented with the backoff
delays slept and the number of base-operation calls made. -/

/-- Backoff slept after a failed non-final attempt:
`Math.min(1000 * Math.pow(2, attempt - 1), 10000)`. -/
def backoffDelay (attempt : Nat) : Nat :=
  min (1000 * 2 ^ (attempt - 1)) 10000

/-- The aggregate failure message.  A JS template literal renders the
optional-chained `lastError?.message` of a null `lastError` as the text
"undefined". -/
def retryFailureMsg (domain : String) (maxRetries : Nat)
    (lastError : Option String) : String :=
  s!"Failed to extract {domain} data from image after {maxRetries} attempts: " ++
    (match lastError with
     | some m => m
     | none => "undefined")

/-- Instrumented outcome of the retry loop. -/
structure RetryOutcome where
  result : Except String RecordData
  delays : List Nat
  calls : Nat
deriving Repr

/-- The `for (let attempt = 1; attempt <= maxRetries; attempt++)` loop
from a given attempt number: return on success; on failure break to the
aggregate throw when `attempt === maxRetries`, else sleep the backoff and
continue with the error recorded as `lastError`. -/
def retryFrom (f : Nat → Except String RecordData) (domain : String)
    (maxRetries attempt : Nat) (lastError : Option String) : RetryOutcome :=
  if h : attempt ≤ maxRetries then
    match f attempt with
    | Except.ok r => { result := Except.ok r, delays := [], calls := 1 }
    | Except.error e =>
        if heq : attempt = maxRetries then
          { result := Except.error (retryFailureMsg domain maxRetries (some e))
            delays := []
            calls := 1 }
        else
          let rest := retryFrom f domain maxRetries (attempt + 1) (some e)
          { result := rest.result
            delays := backoffDelay attempt :: rest.delays
            calls := rest.calls + 1 }
  else
    { result := Except.error (retryFailureMsg domain maxRetries lastError)
      delays := []
      calls := 0 }
termination_by maxRetries + 1 - attempt
decreasing_by omega

/-- `extractDataFromImageWithRetry(env, imageBuffer, domain, maxRetries, …)`:
the loop starting at attempt 1 with `lastError = null`. -/
def extractDataFromImageWithRetry (f : Nat → Except String RecordData)
    (domain : String) (maxRetries : Nat) : RetryOutcome :=
  retryFrom f domain maxRetries 1 none

theorem retryFrom_calls_pos (f : Nat → Except String RecordData)
    (d : String) (mr a : Nat) (le : Option String) (h : a ≤ mr) :
    1 ≤ (retryFrom f d mr a le).calls := by
  rw [retryFrom, dif_pos h]
  cases hfa : f a with
  | ok r => simp
  | error e =>
      by_cases heq : a = mr
      · simp [heq]
      · simp [heq]

theorem retryFrom_delays (f : Nat → Except String RecordData)
    (d : String) (mr a : Nat) (le : Option String) :
    (retryFrom f d mr a le).delays =
      (List.range' a ((retryFrom f d mr a le).calls - 1)).map backoffDelay := by
  induction a, le using retryFrom.induct f d mr with
  | case1 a le h r hfa =>
      rw [retryFrom, dif_pos h, hfa]
      rfl
  | case2 le e hle hfa =>
      rw [retryFrom, dif_pos hle, hfa]
      simp
  | case3 a le h e hfa hne ih =>
      have hnext : a + 1 ≤ mr := by omega
      have hpos := retryFrom_calls_pos f d mr (a + 1) (some e) hnext
      obtain ⟨c, hc⟩ : ∃ c, (retryFrom f d mr (a + 1) (some e)).calls = c + 1 :=
        ⟨(retryFrom f d mr (a + 1) (some e)).calls - 1, by omega⟩
      rw [retryFrom, dif_pos h, hfa]
      simp only [dif_neg hne]
      simp [ih, hc, List.range'_succ]
  | case4 a le h =>
      rw [retryFrom, dif_neg h]
      rfl

theorem retryFrom_first_success (f : Nat → Except String RecordData)
    (d : String) (mr : Nat) :
    ∀ (a : Nat) (le : Option String) (k : Nat) (r : RecordData),
      a ≤ k → k ≤ mr →
      (∀ i, a ≤ i → i < k → ∃ e, f i = Except.error e) →
      f k = Except.ok r →
      (retryFrom f d mr a le).result = Except.ok r ∧
      (retryFrom f d mr a le).calls = k + 1 - a := by
  intro a le
  induction a, le using retryFrom.induct f d mr with
  | case1 a le h r' hfa =>
      intro k r hak hkm hfail hfk
      have hak' : a = k := by
        by_contra hne
        obtain ⟨e, he⟩ := hfail a (Nat.le_refl a) (by omega)
        rw [hfa] at he
        exact Except.noConfusion he
      subst hak'
      rw [hfa] at hfk
      injection hfk with hr
      subst hr
      rw [retryFrom, dif_pos h, hfa]
      refine ⟨rfl, ?_⟩
      show 1 = a + 1 - a
      omega
  | case2 le e hle hfa =>
      intro k r hak hkm _ hfk
      have hk : k = mr := by omega
      subst hk
      rw [hfa] at hfk
      exact Except.noConfusion hfk
  | case3 a le h e hfa hne ih =>
      intro k r hak hkm hfail hfk
      have hlt : a < k := by
        rcases Nat.eq_or_lt_of_le hak with heq | hlt
        · rw [← heq] at hfk
          rw [hfa] at hfk
          exact Except.noConfusion hfk
        · exact hlt
      obtain ⟨hres, hcalls⟩ :=
        ih k r (by omega) hkm (fun i hi1 hi2 => hfail i (by omega) hi2) hfk
      rw [retryFrom, dif_pos h, hfa]
      simp only [dif_neg hne]
      refine ⟨hres, ?_⟩
      show (retryFrom f d mr (a + 1) (some e)).calls + 1 = k + 1 - a
      rw [hcalls]
      omega
  | case4 a le h =>
      intro k r hak hkm _ _
      exact absurd (Nat.le_trans hak hkm) h

theorem retryFrom_all_fail (f : Nat → Except String RecordData)
    (d : String) (mr : Nat) :
    ∀ (a : Nat) (le : Option String),
      a ≤ mr →
      (∀ i, a ≤ i → i ≤ mr → ∃ e, f i = Except.error e) →
      ∃ elast, f mr = Except.error elast ∧
        (retryFrom f d mr a le).result =
          Except.error (retryFailureMsg d mr (some elast)) ∧
        (retryFrom f d mr a le).calls = mr + 1 - a := by
  intro a le
  induction a, le using retryFrom.induct f d mr with
  | case1 a le h r hfa =>
      intro ham hfail
      obtain ⟨e, he⟩ := hfail a (Nat.le_refl a) ham
      rw [hfa] at he
      exact Except.noConfusion he
  | case2 le e hle hfa =>
      intro _ _
      refine ⟨e, hfa, ?_, ?_⟩
      · rw [retryFrom, dif_pos hle, hfa]
        simp
      · rw [retryFrom, dif_pos hle, hfa]
        simp
  | case3 a le h e hfa hne ih =>
      intro ham hfail
      obtain ⟨elast, hml, hres, hcalls⟩ :=
        ih (by omega) (fun i h1 h2 => hfail i (by omega) h2)
      refine ⟨elast, hml, ?_, ?_⟩
      · rw [retryFrom, dif_pos h, hfa]
        simp only [dif_neg hne]
        exact hres
      · rw [retryFrom, dif_pos h, hfa]
        simp only [dif_neg hne]
        show (retryFrom f d mr (a + 1) (some e)).calls + 1 = mr + 1 - a
        rw [hcalls]
        omega
  | case4 a le h =>
      intro ham _
      exact absurd ham h

/-- C4: no delay precedes attempt 1, and the delay preceding attempt
`n ≥ 2` (the `(n-2)`-th recorded delay) is `min(1000·2^(n-2), 10000)`
milliseconds; for `maxRetries = 3` against an always-failing operation
the recorded delays are exactly `[1000, 2000]`. -/
theorem extractDataFromImageWithRetry_backoff :
    (∀ (f : Nat → Except String RecordData) (d : String) (mr : Nat),
      (extractDataFromImageWithRetry f d mr).delays =
        (List.range ((extractDataFromImageWithRetry f d mr).calls - 1)).map
          (fun j => min (1000 * 2 ^ j) 10000)) ∧
    (∀ (f : Nat → Except String RecordData) (d : String),
      (∀ n, ∃ e, f n = Except.error e) →
      (extractDataFromImageWithRetry f d 3).delays = [1000, 2000]) := by
  constructor
  · intro f d mr
    rw [extractDataFromImageWithRetry, retryFrom_delays,
        List.range'_eq_map_range, List.map_map]
    apply List.map_congr_left
    intro j _
    show backoffDelay (1 + j) = min (1000 * 2 ^ j) 10000
    have hj : 1 + j - 1 = j := by omega
    rw [backoffDelay, hj]
  · intro f d hf
    obtain ⟨elast, _, _, hcalls⟩ :=
      retryFrom_all_fail f d 3 1 none (by omega) (fun i _ _ => hf i)
    rw [extractDataFromImageWithRetry, retryFrom_delays, hcalls]
    decide

/-- Fixture: a base operation that fails every attempt with "boom". -/
def alwaysBoom : Nat → Except String RecordData :=
  fun _ => Except.error "boom"

/-- C4 witness: `maxRetries = 3` against the always-failing operation
records exactly the delays 1000ms and 2000ms. -/
theorem extractDataFromImageWithRetry_backoff_witness :
    (∀ n, ∃ e, alwaysBoom n = Except.error e) ∧
    (extractDataFromImageWithRetry alwaysBoom "health" 3).delays =
      [1000, 2000] :=
  ⟨fun _ => ⟨"boom", rfl⟩,
   extractDataFromImageWithRetry_backoff.2 alwaysBoom "health"
     (fun _ => ⟨"boom", rfl⟩)⟩

/-- C5: the retrying entry point returns the first successful attempt's
result (making exactly that many base calls, so nothing partial is ever
returned), and when all `maxRetries ≥ 1` attempts fail it fails with the
single aggregate error naming the domain, the attempt count, and the
final attempt's underlying message. -/
theorem extractDataFromImageWithRetry_result :
    (∀ (f : Nat → Except String RecordData) (d : String) (mr k : Nat)
        (r : RecordData),
      1 ≤ k → k ≤ mr →
      (∀ i, 1 ≤ i → i < k → ∃ e, f i = Except.error e) →
      f k = Except.ok r →
      (extractDataFromImageWithRetry f d mr).result = Except.ok r ∧
      (extractDataFromImageWithRetry f d mr).calls = k) ∧
    (∀ (f : Nat → Except String RecordData) (d : String) (mr : Nat),
      1 ≤ mr →
      (∀ i, 1 ≤ i → i ≤ mr → ∃ e, f i = Except.error e) →
      ∃ elast, f mr = Except.error elast ∧
        (extractDataFromImageWithRetry f d mr).result =
          Except.error (retryFailureMsg d mr (some elast))) ∧
    retryFailureMsg "health" 3 (some "boom") =
      "Failed to extract health data from image after 3 attempts: boom" := by
  refine ⟨?_, ?_, ?_⟩
  · intro f d mr k r hk1 hkm hfail hfk
    obtain ⟨hres, hcalls⟩ :=
      retryFrom_first_success f d mr 1 none k r hk1 hkm hfail hfk
    refine ⟨hres, ?_⟩
    rw [extractDataFromImageWithRetry, hcalls]
    omega
  · intro f d mr hmr hfail
    obtain ⟨elast, hml, hres, _⟩ := retryFrom_all_fail f d mr 1 none hmr hfail
    exact ⟨elast, hml, hres⟩
  · decide

/-- Fixture: a base operation failing on attempt 1 and succeeding on
attempt 2. -/
def succeedsOnSecond : Nat → Except String RecordData :=
  fun n => if n = 2 then Except.ok emptyTextRecord
           else Except.error "transient"

/-- C5 witness: with `maxRetries = 3` and success on attempt 2, the
result is attempt 2's record after exactly two base calls. -/
theorem extractDataFromImageWithRetry_result_witness :
    (1 ≤ 2 ∧ 2 ≤ 3 ∧ succeedsOnSecond 2 = Except.ok emptyTextRecord) ∧
    (extractDataFromImageWithRetry succeedsOnSecond "health" 3).result =
      Except.ok emptyTextRecord ∧
    (extractDataFromImageWithRetry succeedsOnSecond "health" 3).calls = 2 := by
  have h := extractDataFromImageWithRetry_result.1 succeedsOnSecond "health" 3 2
    emptyTextRecord (by decide) (by decide)
    (fun i h1 h2 => ⟨"transient", by
      have hi : i = 1 := by omega
      subst hi
      rfl⟩) rfl
  exact ⟨⟨by decide, by decide, rfl⟩, h.1, h.2⟩

/-- C10: with `maxRetries = 0` the loop body never runs: the base
operation is never invoked, no delay is slept, and the call throws the
aggregate error reporting 0 attempts and the absent (null) last error,
rendered "undefined". -/
theorem extractDataFromImageWithRetry_zero (f : Nat → Except String RecordData)
    (d : String) :
    (extractDataFromImageWithRetry f d 0).calls = 0 ∧
    (extractDataFromImageWithRetry f d 0).delays = [] ∧
    (extractDataFromImageWithRetry f d 0).result =
      Except.error (retryFailureMsg d 0 none) ∧
    retryFailureMsg "health" 0 none =
      "Failed to extract health data from image after 0 attempts: undefined" := by
  refine ⟨?_, ?_, ?_, by decide⟩ <;>
    · rw [extractDataFromImageWithRetry, retryFrom,
          dif_neg (by omega : ¬(1 : Nat) ≤ 0)]

/-! ## Provider configuration — `packages/ai-core/src/config.ts`,
`getAIConfig` / `isValidProvider` -/

/-- `ModelProvider`: the supported AI providers. -/
inductive ModelProvider where
  | google
  | openai
  | anthropic
  | deepseek
  | openrouter
  | cloudflare
deriving DecidableEq, Repr

/-- `AIEnvironment`: the optional environment variables. -/
structure AIEnvironment where
  DEFAULT_PROVIDER : Option String
  GOOGLE_GENERATIVE_AI_API_KEY : Option String
  OPENAI_API_KEY : Option String
  ANTHROPIC_API_KEY : Option String
  DEEPSEEK_API_KEY : Option String
  OPENROUTER_API_KEY : Option String
  CLOUDFLARE_ACCOUNT_ID : Option String
  CLOUDFLARE_API_KEY : Option String

/-- JS truthiness of an optional string environment variable: present
and non-empty. -/
def truthy : Option String → Bool
  | none => false
  | some s => !s.isEmpty

/-- `isValidProvider(provider)`: membership in the fixed provider list. -/
def isValidProvider (provider : String) : Bool :=
  ["google", "openai", "anthropic", "deepseek", "openrouter",
   "cloudflare"].contains provider

/-- The `env.DEFAULT_PROVIDER as ModelProvider` cast, as a partial
parse (defined exactly on the strings `isValidProvider` accepts). -/
def parseProvider (s : String) : Option ModelProvider :=
  if s = "google" then some ModelProvider.google
  else if s = "openai" then some ModelProvider.openai
  else if s = "anthropic" then some ModelProvider.anthropic
  else if s = "deepseek" then some ModelProvider.deepseek
  else if s = "openrouter" then some ModelProvider.openrouter
  else if s = "cloudflare" then some ModelProvider.cloudflare
  else none

/-- `AIConfig` (the `deepseek.baseURL` is the hardcoded constant). -/
structure AIConfig where
  defaultProvider : ModelProvider
  googleApiKey : String
  openaiApiKey : String
  anthropicApiKey : String
  deepseekApiKey : String
  deepseekBaseURL : String
  openrouterApiKey : String
  cloudflareAccountId : String
  cloudflareApiKey : String
deriving DecidableEq, Repr

/-- `getAIConfig(env)`: `let defaultProvider = 'openrouter'`, overridden
by a truthy valid `DEFAULT_PROVIDER`, else by the first truthy credential
in the fixed order google, openai, anthropic, deepseek, openrouter,
cloudflare; missing keys become `''`.  It never throws. -/
def getAIConfig (env : AIEnvironment) : AIConfig :=
  let defaultProvider : ModelProvider :=
    if truthy env.DEFAULT_PROVIDER &&
        isValidProvider (env.DEFAULT_PROVIDER.getD "") then
      (parseProvider (env.DEFAULT_PROVIDER.getD "")).getD ModelProvider.openrouter
    else if truthy env.GOOGLE_GENERATIVE_AI_API_KEY then ModelProvider.google
    else if truthy env.OPENAI_API_KEY then ModelProvider.openai
    else if truthy env.ANTHROPIC_API_KEY then ModelProvider.anthropic
    else if truthy env.DEEPSEEK_API_KEY then ModelProvider.deepseek
    else if truthy env.OPENROUTER_API_KEY then ModelProvider.openrouter
    else if truthy env.CLOUDFLARE_ACCOUNT_ID &&
        truthy env.CLOUDFLARE_API_KEY then ModelProvider.cloudflare
    else ModelProvider.openrouter
  { defaultProvider := defaultProvider
    googleApiKey := env.GOOGLE_GENERATIVE_AI_API_KEY.getD ""
    openaiApiKey := env.OPENAI_API_KEY.getD ""
    anthropicApiKey := env.ANTHROPIC_API_KEY.getD ""
    deepseekApiKey := env.DEEPSEEK_API_KEY.getD ""
    deepseekBaseURL := "https://api.deepseek.com"
    openrouterApiKey := env.OPENROUTER_API_KEY.getD ""
    cloudflareAccountId := env.CLOUDFLARE_ACCOUNT_ID.getD ""
    cloudflareApiKey := env.CLOUDFLARE_API_KEY.getD "" }

/-- The fixed priority list of the spec's resolution description. -/
def providerPriority : List ModelProvider :=
  [ModelProvider.google, ModelProvider.openai, ModelProvider.anthropic,
   ModelProvider.deepseek, ModelProvider.openrouter, ModelProvider.cloudflare]

/-- Whether a provider's credential is present (cloudflare needs both its
account id and key). -/
def credentialPresent (env : AIEnvironment) : ModelProvider → Bool
  | ModelProvider.google => truthy env.GOOGLE_GENERATIVE_AI_API_KEY
  | ModelProvider.openai => truthy env.OPENAI_API_KEY
  | ModelProvider.anthropic => truthy env.ANTHROPIC_API_KEY
  | ModelProvider.deepseek => truthy env.DEEPSEEK_API_KEY
  | ModelProvider.openrouter => truthy env.OPENROUTER_API_KEY
  | ModelProvider.cloudflare =>
      truthy env.CLOUDFLARE_ACCOUNT_ID && truthy env.CLOUDFLARE_API_KEY

/-- Modelled from the spec's resolution order: an explicit value naming a
supported provider wins; else the first provider of the fixed priority
list with a credential present; else the hardcoded "openrouter". -/
def resolveDefaultProviderSpec (env : AIEnvironment) : ModelProvider :=
  match env.DEFAULT_PROVIDER.bind parseProvider with
  | some p => p
  | none =>
      (providerPriority.find? (credentialPresent env)).getD
        ModelProvider.openrouter

theorem find?_getD_cons {α : Type} (p : α → Bool) (a : α) (l : List α)
    (d : α) :
    (((a :: l).find? p).getD d) = if p a then a else ((l.find? p).getD d) := by
  cases h : p a <;> simp [List.find?_cons, h]

theorem isValidProvider_eq_isSome (s : String) :
    isValidProvider s = (parseProvider s).isSome := by
  by_cases h1 : s = "google"
  · subst h1; decide
  by_cases h2 : s = "openai"
  · subst h2; decide
  by_cases h3 : s = "anthropic"
  · subst h3; decide
  by_cases h4 : s = "deepseek"
  · subst h4; decide
  by_cases h5 : s = "openrouter"
  · subst h5; decide
  by_cases h6 : s = "cloudflare"
  · subst h6; decide
  simp [isValidProvider, parseProvider, List.contains_eq_any_beq,
    beq_eq_decide, h1, h2, h3, h4, h5, h6]

theorem parseProvider_truthy {s : String} {p : ModelProvider}
    (h : parseProvider s = some p) : truthy (some s) = true := by
  have hne : s ≠ "" := by
    intro he
    rw [he] at h
    have hn : parseProvider "" = none := by decide
    rw [hn] at h
    exact Option.noConfusion h
  show (!s.isEmpty) = true
  cases hie : s.isEmpty
  · rfl
  · exact absurd ((String.isEmpty_iff s).mp hie) hne

/-- Fixture: no environment variables configured at all. -/
def emptyEnv : AIEnvironment :=
  { DEFAULT_PROVIDER := none
    GOOGLE_GENERATIVE_AI_API_KEY := none
    OPENAI_API_KEY := none
    ANTHROPIC_API_KEY := none
    DEEPSEEK_API_KEY := none
    OPENROUTER_API_KEY := none
    CLOUDFLARE_ACCOUNT_ID := none
    CLOUDFLARE_API_KEY := none }

/-- Fixture: only a Google credential configured, no explicit default. -/
def googleOnlyEnv : AIEnvironment :=
  { DEFAULT_PROVIDER := none
    GOOGLE_GENERATIVE_AI_API_KEY := some "google-key"
    OPENAI_API_KEY := none
    ANTHROPIC_API_KEY := none
    DEEPSEEK_API_KEY := none
    OPENROUTER_API_KEY := none
    CLOUDFLARE_ACCOUNT_ID := none
    CLOUDFLARE_API_KEY := none }

/-- C6: `getAIConfig` resolves the default provider exactly per the
spec's order — explicit supported value, else first of the fixed priority
list with a credential present, else the hardcoded "openrouter"; with
only a Google credential it resolves "google", and with no credentials it
resolves "openrouter" (and, being total, never throws). -/
theorem getAIConfig_default_provider :
    (∀ env : AIEnvironment,
      (getAIConfig env).defaultProvider = resolveDefaultProviderSpec env) ∧
    (getAIConfig googleOnlyEnv).defaultProvider = ModelProvider.google ∧
    (getAIConfig emptyEnv).defaultProvider = ModelProvider.openrouter := by
  refine ⟨?_, by decide, by decide⟩
  intro env
  have hfind :
      ((providerPriority.find? (credentialPresent env)).getD
        ModelProvider.openrouter) =
      (if truthy env.GOOGLE_GENERATIVE_AI_API_KEY then ModelProvider.google
       else if truthy env.OPENAI_API_KEY then ModelProvider.openai
       else if truthy env.ANTHROPIC_API_KEY then ModelProvider.anthropic
       else if truthy env.DEEPSEEK_API_KEY then ModelProvider.deepseek
       else if truthy env.OPENROUTER_API_KEY then ModelProvider.openrouter
       else if truthy env.CLOUDFLARE_ACCOUNT_ID &&
           truthy env.CLOUDFLARE_API_KEY then ModelProvider.cloudflare
       else ModelProvider.openrouter) := by
    rw [providerPriority, find?_getD_cons, find?_getD_cons, find?_getD_cons,
        find?_getD_cons, find?_getD_cons, find?_getD_cons]
    simp [credentialPresent]
  cases hdp : env.DEFAULT_PROVIDER with
  | none =>
      simp only [getAIConfig, resolveDefaultProviderSpec, hdp, Option.bind,
        truthy, Bool.false_and, if_false, Bool.false_eq_true, hfind]
  | some s =>
      by_cases hv : (parseProvider s).isSome
      · obtain ⟨p, hp⟩ := Option.isSome_iff_exists.mp hv
        have hvalid : isValidProvider s = true := by
          rw [isValidProvider_eq_isSome, hp]
          rfl
        have htr : truthy (some s) = true := parseProvider_truthy hp
        simp [getAIConfig, resolveDefaultProviderSpec, hdp, hp, htr, hvalid]
      · have hnone : parseProvider s = none :=
          Option.not_isSome_iff_eq_none.mp hv
        have hvalid : isValidProvider s = false := by
          rw [isValidProvider_eq_isSome, hnone]
          rfl
        simp [getAIConfig, resolveDefaultProviderSpec, hdp, hnone, hvalid,
          hfind]

/-! ## Image input normalisation — `packages/ai-core/src/extractors/image.ts`,
`extractDataFromImage` (lines 33–43) -/

/-- JS `String.prototype.startsWith(p)`, as used by the source. -/
def strStartsWith (s p : String) : Bool :=
  p.toList.isPrefixOf s.toList

/-- The `imageUrl` computation of `extractDataFromImage`: a string input
is passed through when it starts with `"data:"`, otherwise treated as a
bare base64 payload and wrapped with the generic image media-type prefix;
an `ArrayBuffer` input is base64-encoded and wrapped. -/
def imageUrlOfInput : Sum (List Nat) String → String
  | Sum.inr s =>
      if strStartsWith s "data:" then s else "data:image/jpeg;base64," ++ s
  | Sum.inl buf => "data:image/jpeg;base64," ++ arrayBufferToBase64 buf

/-- Modelled from the spec: a string "carries a scheme prefix" when it
opens with a URI scheme (RFC 3986) — a letter, then letters/digits/`+`/
`-`/`.`, then `:`. -/
def carriesUriScheme (s : String) : Bool :=
  match s.toList with
  | [] => false
  | c :: _ =>
      c.isAlpha &&
      (((s.toList.dropWhile
          (fun ch => ch.isAlphanum || ch = '+' || ch = '-' || ch = '.')).headD
          ' ') = ':')

/-- C8 counterexample: "http://example.com/x.png" carries a scheme prefix
yet is not passed through unchanged — the code only recognises the
literal "data:" prefix and wraps everything else as bare base64. -/
theorem scheme_input_not_passed_through :
    carriesUriScheme "http://example.com/x.png" = true ∧
    imageUrlOfInput (Sum.inr "http://example.com/x.png") ≠
      "http://example.com/x.png" ∧
    imageUrlOfInput (Sum.inr "http://example.com/x.png") =
      "data:image/jpeg;base64,http://example.com/x.png" := by
  refine ⟨by decide, by decide, by decide⟩

theorem strStartsWith_wrap (s : String) :
    strStartsWith ("data:image/jpeg;base64," ++ s) "data:" = true := by
  rw [strStartsWith]
  apply List.isPrefixOf_iff_prefix.mpr
  have h1 : "data:".toList <+: "data:image/jpeg;base64,".toList := by decide
  have h2 : "data:image/jpeg;base64,".toList <+:
      ("data:image/jpeg;base64," ++ s).toList := by
    show "data:image/jpeg;base64,".toList <+:
      "data:image/jpeg;base64,".toList ++ s.toList
    exact List.prefix_append _ _
  exact h1.trans h2

/-- C8 (amended): a string input reaches the model call unchanged exactly
when it starts with the literal "data:" prefix — so a full data URI is
used unchanged and the normalisation is idempotent — while every other
string, even one carrying a different URI scheme, is wrapped with the
generic image media-type prefix. -/
theorem imageUrl_passthrough :
    (∀ s : String, strStartsWith s "data:" = true →
      imageUrlOfInput (Sum.inr s) = s) ∧
    (∀ s : String, strStartsWith s "data:" = false →
      imageUrlOfInput (Sum.inr s) = "data:image/jpeg;base64," ++ s) ∧
    (∀ input : Sum (List Nat) String,
      imageUrlOfInput (Sum.inr (imageUrlOfInput input)) =
        imageUrlOfInput input) := by
  refine ⟨fun s h => by simp [imageUrlOfInput, h], fun s h => by
    simp [imageUrlOfInput, h], ?_⟩
  intro input
  cases input with
  | inl buf => simp [imageUrlOfInput, strStartsWith_wrap]
  | inr s =>
      cases h : strStartsWith s "data:" with
      | true => simp [imageUrlOfInput, h]
      | false => simp [imageUrlOfInput, h, strStartsWith_wrap]

/-- C8 (amended) witness: a full data URI is passed through unchanged. -/
theorem imageUrl_passthrough_witness :
    strStartsWith "data:image/png;base64,QUJD" "data:" = true ∧
    imageUrlOfInput (Sum.inr "data:image/png;base64,QUJD") =
      "data:image/png;base64,QUJD" :=
  ⟨by decide, imageUrl_passthrough.1 "data:image/png;base64,QUJD" (by decide)⟩

end AIChart
